import Mathlib

/-!
Verification development for the geoipdb repository: the `iputils` IP
locality classifier and the `geoipdb` ASN override store with its cache
invalidation contract.

IP addresses are embedded as lists of byte values (`List Nat`, each entry
a value below 256, exactly the bytes of Go's `net.IP` slice); a `nil` Go
slice argument is embedded as `Option.none`.  The relevant algorithms of
Go's `net` package (`To4`, `To16`, `ParseCIDR`, `CIDRMask`, `IP.Mask`,
`IPNet.Contains` with `networkNumberAndMask`) are embedded faithfully,
since `IsLocalIP` re-parses its CIDR string tables on every call.
-/

namespace Iputils

/-- The 12-byte head that Go's `net` package prepends to represent an IPv4
address inside a 16-byte slice (`v4InV6Prefix` in the `net` sources; the
name is shortened here). -/
def v4InV6Head : List Nat := [0, 0, 0, 0, 0, 0, 0, 0, 0, 0, 255, 255]

/-- Go `net.IP.To4`: a 4-byte address is returned as is; a 16-byte
IPv4-mapped address is shortened to its 4 trailing bytes; anything else
gives `nil` (embedded as `none`). -/
def toIP4 (ip : List Nat) : Option (List Nat) :=
  if ip.length = 4 then some ip
  else if ip.length = 16 ∧ ip.take 12 = v4InV6Head then some (ip.drop 12)
  else none

/-- Go `net.IP.To16`: a 4-byte address is widened with the IPv4-in-IPv6
head; a 16-byte address is returned as is; anything else gives `nil`. -/
def toIP16 (ip : List Nat) : Option (List Nat) :=
  if ip.length = 4 then some (v4InV6Head ++ ip)
  else if ip.length = 16 then some ip
  else none

/-- Value of a decimal digit character, `none` for a non-digit. -/
def digitVal (ch : Char) : Option Nat :=
  if '0' ≤ ch ∧ ch ≤ '9' then some (ch.toNat - '0'.toNat) else none

/-- Value of a hexadecimal digit character, `none` for a non-digit. -/
def hexVal (ch : Char) : Option Nat :=
  if '0' ≤ ch ∧ ch ≤ '9' then some (ch.toNat - '0'.toNat)
  else if 'a' ≤ ch ∧ ch ≤ 'f' then some (ch.toNat - 'a'.toNat + 10)
  else if 'A' ≤ ch ∧ ch ≤ 'F' then some (ch.toNat - 'A'.toNat + 10)
  else none

/-- Accumulating loop of Go `net`'s `dtoi`: consume decimal digits,
returning (value, digits consumed, ok); overflow past `0xFFFFFF` fails. -/
def dtoiAux : List Char → Nat → Nat → Nat × Nat × Bool
  | [], n, i => (n, i, true)
  | ch :: cs, n, i =>
    match digitVal ch with
    | none => (n, i, true)
    | some v =>
      let n2 := n * 10 + v
      if 0xFFFFFF ≤ n2 then (0xFFFFFF, i, false) else dtoiAux cs n2 (i + 1)

/-- Go `net`'s `dtoi`: decimal number at the start of the string;
fails when there is no digit at all. -/
def dtoi (s : List Char) : Nat × Nat × Bool :=
  match dtoiAux s 0 0 with
  | (n, i, ok) => if i = 0 then (0, 0, false) else (n, i, ok)

/-- Accumulating loop of Go `net`'s `xtoi` (hexadecimal `dtoi`). -/
def xtoiAux : List Char → Nat → Nat → Nat × Nat × Bool
  | [], n, i => (n, i, true)
  | ch :: cs, n, i =>
    match hexVal ch with
    | none => (n, i, true)
    | some v =>
      let n2 := n * 16 + v
      if 0xFFFFFF ≤ n2 then (0, i, false) else xtoiAux cs n2 (i + 1)

/-- Go `net`'s `xtoi`: hexadecimal number at the start of the string. -/
def xtoi (s : List Char) : Nat × Nat × Bool :=
  match xtoiAux s 0 0 with
  | (n, i, ok) => if i = 0 then (0, 0, false) else (n, i, ok)

/-- Field loop of Go `net`'s `parseIPv4`: read `k` dot-separated decimal
fields (each at most 255), returning the fields and the unconsumed rest.
`first` tells whether the next field is the first one (no leading dot). -/
def parseIPv4Fields : Nat → Bool → List Char → Option (List Nat × List Char)
  | 0, _, s => some ([], s)
  | k + 1, first, s =>
    match s with
    | [] => none
    | _ =>
      let s1? : Option (List Char) :=
        if first then some s
        else
          match s with
          | '.' :: r => some r
          | _ => none
      match s1? with
      | none => none
      | some s1 =>
        match dtoi s1 with
        | (n, c, ok) =>
          if ok = true ∧ n ≤ 255 then
            match parseIPv4Fields k false (s1.drop c) with
            | none => none
            | some (rest, s2) => some (n :: rest, s2)
          else none

/-- Go `net`'s `parseIPv4`: a dotted quad, returned in the 16-byte
IPv4-in-IPv6 representation (Go's `IPv4()` constructor). -/
def parseIPv4 (s : List Char) : Option (List Nat) :=
  match parseIPv4Fields 4 true s with
  | some (p, []) => some (v4InV6Head ++ p)
  | _ => none

/-- Main loop of Go `net`'s `parseIPv6`: consume 16-bit hexadecimal
groups separated by colons, handling an embedded IPv4 trailer and at most
one `::` ellipsis.  `acc` holds the bytes read so far, `ell` the byte
position of the ellipsis if one was seen.  The fuel argument strictly
dominates the loop count (each pass adds two bytes to `acc`, which is
capped at 16). -/
def parseIPv6Loop : Nat → List Char → List Nat → Option Nat →
    Option (List Nat × Option Nat)
  | 0, _, _, _ => none
  | fuel + 1, s, acc, ell =>
    if 16 ≤ acc.length then (if s = [] then some (acc, ell) else none)
    else
      match xtoi s with
      | (n, c, ok) =>
        if ok = false ∨ 0xFFFF < n then none
        else if (s.drop c).head? = some '.' then
          (if (ell = none ∧ acc.length ≠ 12) ∨ 16 < acc.length + 4 then none
           else
             match parseIPv4 s with
             | none => none
             | some ip4 => some (acc ++ ip4.drop 12, ell))
        else
          let acc2 := acc ++ [n >>> 8, n % 256]
          let s2 := s.drop c
          if s2 = [] then some (acc2, ell)
          else if s2.head? ≠ some ':' ∨ s2.length = 1 then none
          else
            let s3 := s2.drop 1
            if s3.head? = some ':' then
              (if ell ≠ none then none
               else
                 let s4 := s3.drop 1
                 if s4 = [] then some (acc2, some acc2.length)
                 else parseIPv6Loop fuel s4 acc2 (some acc2.length))
            else parseIPv6Loop fuel s3 acc2 ell

/-- Ellipsis expansion after the main loop of Go `net`'s `parseIPv6`:
fewer than 16 bytes require an ellipsis, which is widened with zero bytes;
a full 16 bytes forbid one. -/
def parseIPv6Post : Option (List Nat × Option Nat) → Option (List Nat)
  | none => none
  | some (acc, ell) =>
    if acc.length < 16 then
      match ell with
      | none => none
      | some e => some (acc.take e ++ List.replicate (16 - acc.length) 0 ++ acc.drop e)
    else
      match ell with
      | none => some acc
      | some _ => none

/-- Go `net`'s `parseIPv6` (zoneless form, as used by `ParseCIDR`). -/
def parseIPv6 (s : List Char) : Option (List Nat) :=
  match s with
  | ':' :: ':' :: rest =>
    if rest = [] then some (List.replicate 16 0)
    else parseIPv6Post (parseIPv6Loop 9 rest [] (some 0))
  | _ => parseIPv6Post (parseIPv6Loop 9 s [] none)

/-- Byte-building loop of Go `net.CIDRMask`: `l` mask bytes for `n`
leading one bits. -/
def cidrMaskAux : Nat → Nat → List Nat
  | 0, _ => []
  | l + 1, n =>
    if 8 ≤ n then 255 :: cidrMaskAux l (n - 8)
    else (255 - (255 >>> n)) :: cidrMaskAux l 0

/-- Go `net.CIDRMask`: a mask of `bits` total bits with `ones` leading one
bits; `nil` (embedded as `[]`) outside the supported shapes. -/
def cidrMask (ones bits : Nat) : List Nat :=
  if (bits = 32 ∨ bits = 128) ∧ ones ≤ bits then cidrMaskAux (bits / 8) ones
  else []

/-- Go `net.IP.Mask`: byte-wise conjunction of an address and a mask,
after reconciling 4-byte and 16-byte representations; `nil` (embedded as
`[]`) on a length mismatch. -/
def maskIP (ip mask : List Nat) : List Nat :=
  let mask2 :=
    if mask.length = 16 ∧ ip.length = 4 ∧ (mask.take 12).all (fun b => b == 255)
    then mask.drop 12 else mask
  let ip2 :=
    if mask2.length = 4 ∧ ip.length = 16 ∧ ip.take 12 = v4InV6Head
    then ip.drop 12 else ip
  if ip2.length = mask2.length then (ip2.zip mask2).map (fun p => p.1 &&& p.2)
  else []

/-- Go `net.IPNet`: a network given by a base address and a mask. -/
structure IPNet where
  ip : List Nat
  mask : List Nat
deriving DecidableEq

/-- Go `net`'s `networkNumberAndMask`: canonical (address, mask) pair of a
network, preferring the 4-byte representation; `none` embeds the
`nil, nil` failure answer. -/
def networkNumberAndMask (n : IPNet) : Option (List Nat × List Nat) :=
  let ipc : Option (List Nat) :=
    match toIP4 n.ip with
    | some x => some x
    | none => if n.ip.length = 16 then some n.ip else none
  match ipc with
  | none => none
  | some ip =>
    if n.mask.length = 4 then
      (if ip.length ≠ 4 then none else some (ip, n.mask))
    else if n.mask.length = 16 then
      some (ip, if ip.length = 4 then n.mask.drop 12 else n.mask)
    else none

/-- Go `net.IPNet.Contains`: membership of an address in a network, with
the same 4-byte preference as the Go code.  When `networkNumberAndMask`
fails, Go compares against `nil` network and mask slices, so only a
length-zero candidate address passes vacuously. -/
def IPNet.contains (n : IPNet) (ip : List Nat) : Bool :=
  let ipc :=
    match toIP4 ip with
    | some x => x
    | none => ip
  match networkNumberAndMask n with
  | none => ipc.length == 0
  | some (nn, m) =>
    ipc.length == nn.length &&
      (nn.zip (m.zip ipc)).all (fun t => t.1 &&& t.2.1 == t.2.2 &&& t.2.1)

/-- Split at the first '/' character, as `ParseCIDR` does; `none` when
there is no '/'. -/
def splitSlash : List Char → Option (List Char × List Char)
  | [] => none
  | '/' :: rest => some ([], rest)
  | ch :: rest =>
    match splitSlash rest with
    | none => none
    | some (a, b) => some (ch :: a, b)

/-- Go `net.ParseCIDR`: parse "address/ones" into the address and the
implied network; `none` embeds the error return. -/
def parseCIDR (s : String) : Option (List Nat × IPNet) :=
  match splitSlash s.data with
  | none => none
  | some (addr, maskS) =>
    let pr : Option (List Nat) × Nat :=
      match parseIPv4 addr with
      | some ip => (some ip, 4)
      | none => (parseIPv6 addr, 16)
    match pr with
    | (none, _) => none
    | (some ip, iplen) =>
      match dtoi maskS with
      | (n, i, ok) =>
        if ok = true ∧ i = maskS.length ∧ n ≤ 8 * iplen then
          some (ip, IPNet.mk (maskIP ip (cidrMask n (8 * iplen))) (cidrMask n (8 * iplen)))
        else none

/-- `nonGlobalIPv4CIDRs` from the source: IANA IPv4 special-purpose
registry entries whose Global flag is false. -/
def nonGlobalIPv4CIDRs : List String :=
  ["127.0.0.0/8",
   "192.168.0.0/16",
   "10.0.0.0/8",
   "172.16.0.0/12",
   "0.0.0.0/8",
   "100.64.0.0/10",
   "169.254.0.0/16",
   "192.0.0.0/24",
   "192.0.2.0/24",
   "198.18.0.0/15",
   "198.51.100.0/24",
   "203.0.113.0/24",
   "240.0.0.0/4",
   "255.255.255.255/32"]

/-- `nonGlobalIPv6CIDRs` from the source: IANA IPv6 special-purpose
registry entries whose Global flag is false. -/
def nonGlobalIPv6CIDRs : List String :=
  ["::1/128",
   "fc00::/7",
   "::ffff:0:0/96",
   "2001::/23",
   "fe80::/10",
   "2001:db8::/32",
   "2001:2::/48",
   "2001::/32",
   "100::/64",
   "::/128"]

/-- The per-family loop body of `IsLocalIP` from the source: walk the CIDR
string table, skip entries that fail to parse (the `continue` branch), and
answer whether any parsed entry contains the address. -/
def localIPLoop (cidrs : List String) (ip : List Nat) : Bool :=
  cidrs.any (fun cidr =>
    match parseCIDR cidr with
    | none => false
    | some pr => pr.2.contains ip)

/-- `IsLocalIP` from the source: `nil` is local; an address with a To4
form is judged by the IPv4 table on that 4-byte form; otherwise a 16-byte
address is judged by the IPv6 table; anything else is not local. -/
def IsLocalIP : Option (List Nat) → Bool
  | none => true
  | some ip =>
    match toIP4 ip with
    | some ip4 => localIPLoop nonGlobalIPv4CIDRs ip4
    | none =>
      match toIP16 ip with
      | some ip6 => localIPLoop nonGlobalIPv6CIDRs ip6
      | none => false

/-- `init` from the source: every entry of both tables must parse;
the first unparseable entry panics, embedded as an `Except.error`
carrying the offending entry. -/
def initCheckList : List String → Except String Unit
  | [] => .ok ()
  | cidr :: rest =>
    match parseCIDR cidr with
    | none => .error ("unparseable CIDR '" ++ cidr ++ "'")
    | some _ => initCheckList rest

/-- The `init` function of the source applied to its actual tables. -/
def initCheck : Except String Unit :=
  initCheckList (nonGlobalIPv4CIDRs ++ nonGlobalIPv6CIDRs)

/-- The IPv4 table as parsed networks (the entries `IsLocalIP` actually
tests against). -/
def ipv4Nets : List IPNet :=
  nonGlobalIPv4CIDRs.filterMap (fun cidr => (parseCIDR cidr).map Prod.snd)

/-- The IPv6 table as parsed networks. -/
def ipv6Nets : List IPNet :=
  nonGlobalIPv6CIDRs.filterMap (fun cidr => (parseCIDR cidr).map Prod.snd)

end Iputils

namespace Geoipdb

/-- `AsnOverride` from the source: the document stored in the overrides
collection (`Asn` is the primary key `_id`, `Name` the description). -/
structure AsnOverride where
  asn : String
  name : String
deriving DecidableEq

/-- Outcome of a single document lookup or removal against the mgo
driver, as the source distinguishes them: `mgo.ErrNotFound` versus any
other driver error (carried as its message). -/
inductive MgoErr where
  | notFound
  | other (msg : String)
deriving DecidableEq

/-- The overrides mongo collection, an external collaborator of the
source.  Its semantics follow the write contract the spec states for it
(upsert-by-key, delete-by-key tolerant of a missing key, full scan);
`fault`, when set, makes every driver call fail with that message,
modelling a transport or storage failure. -/
structure Collection where
  docs : List AsnOverride
  fault : Option String
deriving DecidableEq

/-- `FindId(asn).One(&override)` against the collection: the first
document whose key matches, `mgo.ErrNotFound` when none does. -/
def Collection.findId (c : Collection) (asn : String) : Except MgoErr AsnOverride :=
  match c.fault with
  | some m => .error (.other m)
  | none =>
    match c.docs.find? (fun d => d.asn == asn) with
    | none => .error .notFound
    | some d => .ok d

/-- `UpsertId(asn, set name)` against the collection: update the matching
document's name, or insert a fresh document when none matches. -/
def Collection.upsertId (c : Collection) (asn descr : String) : Except String Collection :=
  match c.fault with
  | some m => .error m
  | none =>
    if c.docs.any (fun d => d.asn == asn) then
      .ok (Collection.mk
        (c.docs.map (fun d => if d.asn == asn then AsnOverride.mk d.asn descr else d))
        c.fault)
    else .ok (Collection.mk (c.docs ++ [AsnOverride.mk asn descr]) c.fault)

/-- `RemoveId(asn)` against the collection: delete the matching document,
`mgo.ErrNotFound` when none matches. -/
def Collection.removeId (c : Collection) (asn : String) : Except MgoErr Collection :=
  match c.fault with
  | some m => .error (.other m)
  | none =>
    if c.docs.any (fun d => d.asn == asn) then
      .ok (Collection.mk (c.docs.eraseP (fun d => d.asn == asn)) c.fault)
    else .error .notFound

/-- `Find(nil).All(&answer)` against the collection: every document; the
Go slice filled by `All` is `nil` exactly when there is no document, which
the embedding keeps as `none` versus `some`. -/
def Collection.findAll (c : Collection) : Except String (Option (List AsnOverride)) :=
  match c.fault with
  | some m => .error m
  | none => .ok (if c.docs.isEmpty then none else some c.docs)

/-- Modelled from the spec: `purgeASN` is the cache's point invalidation
(`PurgeKey`), whose code is not among the provided sources.  Per the spec
it drops every cache entry for the given key and is a no-op on an absent
key.  The cache is embedded as an association list from identifier to
description. -/
def purgeASN (cache : List (String × String)) (asn : String) : List (String × String) :=
  cache.filter (fun e => !(e.1 == asn))

/-- Cache read by key: the first entry for the key, if any. -/
def cacheLookup (cache : List (String × String)) (asn : String) : Option String :=
  (cache.find? (fun e => e.1 == asn)).map Prod.snd

/-- Modelled from the spec: `reASN` is the compiled ASN-syntax pattern
referenced by `OverridesSet` but defined outside the provided sources.
Per the spec an identifier is the literal "AS" followed by the number of
the autonomous system (one or more decimal digits). -/
def reASN (s : String) : Bool :=
  match s.data with
  | 'A' :: 'S' :: rest => !rest.isEmpty && rest.all (fun ch => decide ('0' ≤ ch ∧ ch ≤ '9'))
  | _ => false

/-- The closed error taxonomy of the overrides methods: the three package
sentinels plus the `fmt.Errorf` wrapper of an underlying driver error. -/
inductive GeoErr where
  | nilCollection
  | asnNotFound
  | malformedAsn
  | infra (msg : String)
deriving DecidableEq

/-- `Handler`, restricted to the fields the overrides methods touch: the
optional overrides collection and the ASN description cache. -/
structure Handler where
  overrides : Option Collection
  cache : List (String × String)
deriving DecidableEq

/-- `OverridesLookup` from the source: nil-collection guard, then
`FindId`, mapping `mgo.ErrNotFound` to the not-found sentinel and any
other driver error to a wrapped infrastructure error. -/
def Handler.OverridesLookup (h : Handler) (asn : String) : Except GeoErr String :=
  match h.overrides with
  | none => .error .nilCollection
  | some c =>
    match c.findId asn with
    | .error .notFound => .error .asnNotFound
    | .error (.other m) => .error (.infra ("cannot lookup override: " ++ m))
    | .ok ov => .ok ov.name

/-- `OverridesSet` from the source: purge the cache entry for the ASN
first, then the nil-collection guard, then the ASN-syntax check, then the
upsert; a driver error is wrapped.  The pair is (method result, handler
state after the call). -/
def Handler.OverridesSet (h : Handler) (asn descr : String) :
    Except GeoErr Unit × Handler :=
  let h1 := Handler.mk h.overrides (purgeASN h.cache asn)
  match h1.overrides with
  | none => (.error .nilCollection, h1)
  | some c =>
    if reASN asn = false then (.error .malformedAsn, h1)
    else
      match c.upsertId asn descr with
      | .error m => (.error (.infra ("cannot set override: " ++ m)), h1)
      | .ok c2 => (.ok (), Handler.mk (some c2) h1.cache)

/-- `OverridesRemove` from the source: purge the cache entry for the ASN
first, then the nil-collection guard, then the removal, mapping
`mgo.ErrNotFound` to plain success and wrapping any other driver error. -/
def Handler.OverridesRemove (h : Handler) (asn : String) :
    Except GeoErr Unit × Handler :=
  let h1 := Handler.mk h.overrides (purgeASN h.cache asn)
  match h1.overrides with
  | none => (.error .nilCollection, h1)
  | some c =>
    match c.removeId asn with
    | .error .notFound => (.ok (), h1)
    | .error (.other m) => (.error (.infra ("cannot remove override: " ++ m)), h1)
    | .ok c2 => (.ok (), Handler.mk (some c2) h1.cache)

/-- `OverridesList` from the source: nil-collection guard, full scan with
wrapping of a driver error, and replacement of a `nil` answer slice by an
empty one. -/
def Handler.OverridesList (h : Handler) : Except GeoErr (Option (List AsnOverride)) :=
  match h.overrides with
  | none => .error .nilCollection
  | some c =>
    match c.findAll with
    | .error m => .error (.infra ("cannot retrieve overrides: " ++ m))
    | .ok none => .ok (some [])
    | .ok (some l) => .ok (some l)

end Geoipdb

/-! Helper lemmas. -/

/-- The per-family loop of `IsLocalIP` answers membership in the list of
successfully parsed networks of its string table. -/
theorem localIPLoop_eq_any (cidrs : List String) (ip : List Nat) :
    Iputils.localIPLoop cidrs ip =
      (cidrs.filterMap (fun cidr => (Iputils.parseCIDR cidr).map Prod.snd)).any
        (fun n => n.contains ip) := by
  induction cidrs with
  | nil => rfl
  | cons c cs ih =>
    unfold Iputils.localIPLoop at ih ⊢
    cases h : Iputils.parseCIDR c <;>
      simp [List.filterMap_cons, h, List.any_cons, ih]

/-- Purging a key leaves no cache entry for that key. -/
theorem cacheLookup_purgeASN (cache : List (String × String)) (asn : String) :
    Geoipdb.cacheLookup (Geoipdb.purgeASN cache asn) asn = none := by
  have h : (Geoipdb.purgeASN cache asn).find? (fun e => e.1 == asn) = none := by
    rw [List.find?_eq_none]
    intro x hx
    have := (List.mem_filter.mp hx).2
    simp at this
    simp [this]
  simp [Geoipdb.cacheLookup, h]

/-- A find after an update-in-place upsert returns the fresh document. -/
theorem find?_upsert_map (docs : List Geoipdb.AsnOverride) (asn descr : String)
    (h : docs.any (fun d => d.asn == asn) = true) :
    (docs.map (fun d => if d.asn == asn then Geoipdb.AsnOverride.mk d.asn descr else d)).find?
        (fun d => d.asn == asn) = some (Geoipdb.AsnOverride.mk asn descr) := by
  induction docs with
  | nil => simp at h
  | cons d ds ih =>
    by_cases hd : (d.asn == asn) = true
    · have hde : d.asn = asn := by simpa using hd
      simp only [List.map_cons, if_pos hd]
      rw [List.find?_cons_of_pos _ (by simpa using hd)]
      simp [hde]
    · simp only [List.any_cons, Bool.or_eq_true] at h
      rcases h with h | h
      · exact absurd h hd
      · simp only [List.map_cons, if_neg hd]
        rw [List.find?_cons_of_neg _ (by simpa using hd)]
        exact ih h

/-- A find after an inserting upsert returns the fresh document. -/
theorem find?_upsert_append (docs : List Geoipdb.AsnOverride) (asn descr : String)
    (h : docs.any (fun d => d.asn == asn) = false) :
    (docs ++ [Geoipdb.AsnOverride.mk asn descr]).find? (fun d => d.asn == asn) =
      some (Geoipdb.AsnOverride.mk asn descr) := by
  induction docs with
  | nil => simp
  | cons d ds ih =>
    rw [List.any_cons] at h
    cases hd : (d.asn == asn) with
    | true => rw [hd, Bool.true_or] at h; exact absurd h (by simp)
    | false =>
      rw [List.cons_append, List.find?_cons_of_neg _ (by simp [hd])]
      rw [hd, Bool.false_or] at h
      exact ih h

/-- The upsert replacement map keeps every document's key, so testing the
key after the replacement is testing it before. -/
theorem upsert_comp_pred (asn descr : String) :
    ((fun d : Geoipdb.AsnOverride => d.asn == asn) ∘
      fun d => if d.asn == asn then Geoipdb.AsnOverride.mk d.asn descr else d) =
    (fun d : Geoipdb.AsnOverride => d.asn == asn) := by
  funext d
  by_cases hd : d.asn = asn <;> simp [hd]

/-- The upsert replacement map keeps every document's key, hence the
count of key matches. -/
theorem countP_upsert_map (docs : List Geoipdb.AsnOverride) (asn descr : String) :
    (docs.map (fun d => if d.asn == asn then Geoipdb.AsnOverride.mk d.asn descr else d)).countP
        (fun d => d.asn == asn) = docs.countP (fun d => d.asn == asn) := by
  rw [List.countP_map, upsert_comp_pred]

/-- Erasing the only key match leaves no key match to find. -/
theorem find?_eraseP_of_countP_eq_one {α : Type} (l : List α) (p : α → Bool)
    (h : l.countP p = 1) : (l.eraseP p).find? p = none := by
  induction l with
  | nil => simp at h
  | cons d ds ih =>
    cases hd : p d with
    | true =>
      rw [List.eraseP_cons_of_pos hd]
      rw [List.countP_cons, if_pos hd] at h
      have h0 : ds.countP p = 0 := by omega
      rw [List.find?_eq_none]
      exact List.countP_eq_zero.mp h0
    | false =>
      rw [List.eraseP_cons_of_neg (by simp [hd])]
      rw [List.find?_cons_of_neg _ (by simp [hd])]
      apply ih
      rw [List.countP_cons, if_neg (by simp [hd])] at h
      simpa using h

/-- A list with no findable match has no match at all. -/
theorem any_eq_false_of_find?_eq_none {α : Type} (l : List α) (p : α → Bool)
    (h : l.find? p = none) : l.any p = false := by
  rw [List.any_eq_false]
  intro x hx
  exact List.find?_eq_none.mp h x hx

/-- A positive match count yields a positive `any`. -/
theorem any_of_countP_pos {α : Type} (l : List α) (p : α → Bool)
    (h : 0 < l.countP p) : l.any p = true := by
  rw [List.any_eq_true]
  rcases List.countP_pos_iff.mp h with ⟨a, ha, hpa⟩
  exact ⟨a, ⟨ha, hpa⟩⟩

/-! Claim theorems. -/

/-- C9: `IsLocalIP` applied to a nil address answers true. -/
theorem C9_isLocalIP_nil : Iputils.IsLocalIP none = true := rfl

/-- C7: startup validation is fail-fast: the `init` check succeeds on the
actual tables; in general the check succeeds exactly when every entry of
the checked list parses; and every entry of both tables parses as a valid
CIDR, so the per-call parse inside `IsLocalIP` never hits its error
branch for these tables. -/
theorem C7_startup_validation :
    Iputils.initCheck = .ok () ∧
    (∀ l : List String, Iputils.initCheckList l = .ok () ↔
      l.all (fun cidr => (Iputils.parseCIDR cidr).isSome) = true) ∧
    (Iputils.nonGlobalIPv4CIDRs ++ Iputils.nonGlobalIPv6CIDRs).all
      (fun cidr => (Iputils.parseCIDR cidr).isSome) = true := by
  refine ⟨rfl, ?_, by decide⟩
  intro l
  induction l with
  | nil => simp [Iputils.initCheckList]
  | cons c cs ih =>
    cases hc : Iputils.parseCIDR c <;>
      simp [Iputils.initCheckList, hc, ih]

/-- C7 witness: the general fail-fast equivalence evaluated on a
one-entry list with an unparseable entry. -/
theorem C7_startup_validation_witness :
    Iputils.initCheckList ["bogus"] = .ok () ↔
      (["bogus"].all (fun cidr => (Iputils.parseCIDR cidr).isSome) = true) :=
  C7_startup_validation.2.1 ["bogus"]

/-- C6: with no configured overrides collection, every one of the four
overrides methods returns the nil-collection error. -/
theorem C6_unconfigured_store :
    ∀ (h : Geoipdb.Handler) (asn descr : String), h.overrides = none →
      h.OverridesLookup asn = .error .nilCollection ∧
      (h.OverridesSet asn descr).1 = .error .nilCollection ∧
      (h.OverridesRemove asn).1 = .error .nilCollection ∧
      h.OverridesList = .error .nilCollection := by
  intro h asn descr hov
  simp [Geoipdb.Handler.OverridesLookup, Geoipdb.Handler.OverridesSet,
    Geoipdb.Handler.OverridesRemove, Geoipdb.Handler.OverridesList, hov]

/-- C6 witness: the four methods on a concrete unconfigured handler. -/
theorem C6_unconfigured_store_witness :
    (Geoipdb.Handler.mk none []).OverridesLookup "AS1" = .error .nilCollection ∧
    ((Geoipdb.Handler.mk none []).OverridesSet "AS1" "d").1 = .error .nilCollection ∧
    ((Geoipdb.Handler.mk none []).OverridesRemove "AS1").1 = .error .nilCollection ∧
    (Geoipdb.Handler.mk none []).OverridesList = .error .nilCollection :=
  C6_unconfigured_store (Geoipdb.Handler.mk none []) "AS1" "d" rfl

/-- C3: cache coherence — both mutation methods purge the cache entry for
the identifier before touching the durable store, so whatever the outcome
the post-call cache is exactly the purged pre-call cache and holds no
entry for the identifier. -/
theorem C3_cache_coherence :
    ∀ (h : Geoipdb.Handler) (asn descr : String),
      (h.OverridesSet asn descr).2.cache = Geoipdb.purgeASN h.cache asn ∧
      (h.OverridesRemove asn).2.cache = Geoipdb.purgeASN h.cache asn ∧
      Geoipdb.cacheLookup (h.OverridesSet asn descr).2.cache asn = none ∧
      Geoipdb.cacheLookup (h.OverridesRemove asn).2.cache asn = none := by
  intro h asn descr
  have hset : (h.OverridesSet asn descr).2.cache = Geoipdb.purgeASN h.cache asn := by
    cases hov : h.overrides with
    | none => simp [Geoipdb.Handler.OverridesSet, hov]
    | some c =>
      cases hre : Geoipdb.reASN asn <;> cases hup : c.upsertId asn descr <;>
        simp [Geoipdb.Handler.OverridesSet, hov, hre, hup]
  have hrem : (h.OverridesRemove asn).2.cache = Geoipdb.purgeASN h.cache asn := by
    cases hov : h.overrides with
    | none => simp [Geoipdb.Handler.OverridesRemove, hov]
    | some c =>
      cases hrm : c.removeId asn with
      | ok c2 => simp [Geoipdb.Handler.OverridesRemove, hov, hrm]
      | error e => cases e <;> simp [Geoipdb.Handler.OverridesRemove, hov, hrm]
  exact ⟨hset, hrem, by rw [hset]; exact cacheLookup_purgeASN _ _,
    by rw [hrem]; exact cacheLookup_purgeASN _ _⟩

/-- C10: with an unconfigured store both mutation methods still purge the
cache entry for the identifier first and return the nil-collection error
for every input, so a syntactically malformed identifier never yields the
malformed-ASN error in that state. -/
theorem C10_purge_and_check_precedence :
    ∀ (h : Geoipdb.Handler) (asn descr : String), h.overrides = none →
      (h.OverridesSet asn descr).1 = .error .nilCollection ∧
      (h.OverridesSet asn descr).1 ≠ .error .malformedAsn ∧
      (h.OverridesRemove asn).1 = .error .nilCollection ∧
      (h.OverridesSet asn descr).2.cache = Geoipdb.purgeASN h.cache asn ∧
      (h.OverridesRemove asn).2.cache = Geoipdb.purgeASN h.cache asn := by
  intro h asn descr hov
  simp [Geoipdb.Handler.OverridesSet, Geoipdb.Handler.OverridesRemove, hov]

/-- C10 witness: a concrete unconfigured handler with a cached entry for
the malformed identifier "x": the set purges that entry and reports the
unavailable store, not the malformed identifier. -/
theorem C10_purge_and_check_precedence_witness :
    ((Geoipdb.Handler.mk none [("x", "v")]).OverridesSet "x" "d").1 = .error .nilCollection ∧
    ((Geoipdb.Handler.mk none [("x", "v")]).OverridesSet "x" "d").1 ≠ .error .malformedAsn ∧
    ((Geoipdb.Handler.mk none [("x", "v")]).OverridesRemove "x").1 = .error .nilCollection ∧
    ((Geoipdb.Handler.mk none [("x", "v")]).OverridesSet "x" "d").2.cache =
      Geoipdb.purgeASN [("x", "v")] "x" ∧
    ((Geoipdb.Handler.mk none [("x", "v")]).OverridesRemove "x").2.cache =
      Geoipdb.purgeASN [("x", "v")] "x" :=
  C10_purge_and_check_precedence (Geoipdb.Handler.mk none [("x", "v")]) "x" "d" rfl

/-- C8: `OverridesList` with a configured, non-failing store answers a
non-nil slice with exactly the durable records (empty when there are
none); and in general a successful answer is never the nil slice. -/
theorem C8_list_never_nil :
    (∀ (h : Geoipdb.Handler) (c : Geoipdb.Collection),
      h.overrides = some c → c.fault = none →
      h.OverridesList = .ok (some c.docs)) ∧
    (∀ (h : Geoipdb.Handler) (r : Option (List Geoipdb.AsnOverride)),
      h.OverridesList = .ok r → r ≠ none) := by
  constructor
  · intro h c hov hf
    cases hd : c.docs.isEmpty with
    | true =>
      have hnil : c.docs = [] := by simpa using hd
      simp [Geoipdb.Handler.OverridesList, Geoipdb.Collection.findAll, hov, hf, hd, hnil]
    | false =>
      simp [Geoipdb.Handler.OverridesList, Geoipdb.Collection.findAll, hov, hf, hd]
  · intro h r hr hrn
    subst hrn
    cases hov : h.overrides with
    | none => simp [Geoipdb.Handler.OverridesList, hov] at hr
    | some c =>
      cases hf : c.fault with
      | some m =>
        simp [Geoipdb.Handler.OverridesList, Geoipdb.Collection.findAll, hov, hf] at hr
      | none =>
        cases hd : c.docs.isEmpty <;>
          simp [Geoipdb.Handler.OverridesList, Geoipdb.Collection.findAll, hov, hf, hd] at hr

/-- C8 witness: listing a concrete one-record store. -/
theorem C8_list_never_nil_witness :
    (Geoipdb.Handler.mk (some (Geoipdb.Collection.mk [Geoipdb.AsnOverride.mk "AS1" "x"] none))
      []).OverridesList = .ok (some [Geoipdb.AsnOverride.mk "AS1" "x"]) :=
  C8_list_never_nil.1
    (Geoipdb.Handler.mk (some (Geoipdb.Collection.mk [Geoipdb.AsnOverride.mk "AS1" "x"] none)) [])
    (Geoipdb.Collection.mk [Geoipdb.AsnOverride.mk "AS1" "x"] none) rfl rfl

/-- C1 counterexample: with a configured store and a cached entry for the
syntactically invalid identifier "x", `OverridesSet` does return the
malformed-ASN error but the cache entry for "x" has been purged, so the
call is not free of side effects as the claim states. -/
theorem C1_counterexample :
    Geoipdb.reASN "x" = false ∧
    ((Geoipdb.Handler.mk (some (Geoipdb.Collection.mk [] none)) [("x", "v")]).OverridesSet
      "x" "d").1 = .error .malformedAsn ∧
    ¬ (((Geoipdb.Handler.mk (some (Geoipdb.Collection.mk [] none)) [("x", "v")]).OverridesSet
      "x" "d").2.cache = [("x", "v")]) :=
  ⟨by decide, rfl, by decide⟩

/-- C1 (amended): with a configured store, a syntactically invalid
identifier makes `OverridesSet` fail with the malformed-ASN error and
leaves the durable store untouched, but the cache entry for the
identifier is purged first rather than kept. -/
theorem C1_malformed_set :
    ∀ (h : Geoipdb.Handler) (c : Geoipdb.Collection) (asn descr : String),
      h.overrides = some c → Geoipdb.reASN asn = false →
      (h.OverridesSet asn descr).1 = .error .malformedAsn ∧
      (h.OverridesSet asn descr).2.overrides = h.overrides ∧
      (h.OverridesSet asn descr).2.cache = Geoipdb.purgeASN h.cache asn := by
  intro h c asn descr hov hre
  simp [Geoipdb.Handler.OverridesSet, hov, hre]

/-- C1 witness: the amended statement at the concrete input of the
counterexample. -/
theorem C1_malformed_set_witness :
    ((Geoipdb.Handler.mk (some (Geoipdb.Collection.mk [] none)) [("x", "v")]).OverridesSet
      "x" "d").1 = .error .malformedAsn ∧
    ((Geoipdb.Handler.mk (some (Geoipdb.Collection.mk [] none)) [("x", "v")]).OverridesSet
      "x" "d").2.overrides = (Geoipdb.Handler.mk (some (Geoipdb.Collection.mk [] none))
        [("x", "v")]).overrides ∧
    ((Geoipdb.Handler.mk (some (Geoipdb.Collection.mk [] none)) [("x", "v")]).OverridesSet
      "x" "d").2.cache = Geoipdb.purgeASN [("x", "v")] "x" :=
  C1_malformed_set (Geoipdb.Handler.mk (some (Geoipdb.Collection.mk [] none)) [("x", "v")])
    (Geoipdb.Collection.mk [] none) "x" "d" rfl (by decide)

/-- C4: round trip — with a configured, non-failing store and a valid
identifier, a set followed by a lookup of the same identifier succeeds
and answers the description just stored. -/
theorem C4_round_trip :
    ∀ (h : Geoipdb.Handler) (c : Geoipdb.Collection) (asn descr : String),
      h.overrides = some c → c.fault = none → Geoipdb.reASN asn = true →
      (h.OverridesSet asn descr).1 = .ok () ∧
      (h.OverridesSet asn descr).2.OverridesLookup asn = .ok descr := by
  intro h c asn descr hov hf hre
  cases hany : c.docs.any (fun d => d.asn == asn) with
  | false =>
    have hfind : c.docs.find? (fun d => d.asn == asn) = none := by
      rw [List.find?_eq_none]
      intro x hx
      exact List.any_eq_false.mp hany x hx
    simp [Geoipdb.Handler.OverridesSet, Geoipdb.Collection.upsertId, hov, hf, hre, hany,
      Geoipdb.Handler.OverridesLookup, Geoipdb.Collection.findId, hfind]
  | true =>
    obtain ⟨d0, hd0, hp0⟩ := List.any_eq_true.mp hany
    have hsome : ∃ e, c.docs.find? (fun d => d.asn == asn) = some e := by
      cases hfs : c.docs.find? (fun d => d.asn == asn) with
      | some e => exact ⟨e, rfl⟩
      | none => exact absurd (List.find?_eq_none.mp hfs d0 hd0) (by simp [hp0])
    obtain ⟨e, he⟩ := hsome
    have hpe := List.find?_some he
    have hea : e.asn = asn := by simpa using hpe
    have hcomp : ((fun d : Geoipdb.AsnOverride => d.asn == asn) ∘
        fun d => if d.asn = asn then Geoipdb.AsnOverride.mk d.asn descr else d) =
        (fun d : Geoipdb.AsnOverride => d.asn == asn) := by
      funext d
      by_cases hd : d.asn = asn <;> simp [hd]
    simp [Geoipdb.Handler.OverridesSet, Geoipdb.Collection.upsertId, hov, hf, hre, hany,
      Geoipdb.Handler.OverridesLookup, Geoipdb.Collection.findId, hcomp,
      he, hpe, hea]

/-- C4 witness: the round trip on a concrete empty configured store. -/
theorem C4_round_trip_witness :
    ((Geoipdb.Handler.mk (some (Geoipdb.Collection.mk [] none)) []).OverridesSet
      "AS1" "desc").1 = .ok () ∧
    ((Geoipdb.Handler.mk (some (Geoipdb.Collection.mk [] none)) []).OverridesSet
      "AS1" "desc").2.OverridesLookup "AS1" = .ok "desc" :=
  C4_round_trip (Geoipdb.Handler.mk (some (Geoipdb.Collection.mk [] none)) [])
    (Geoipdb.Collection.mk [] none) "AS1" "desc" rfl rfl (by decide)

/-- C5: `OverridesRemove` is idempotent and suppresses only the driver's
not-found answer: with a configured, non-failing store, removing an
identifier with no durable record succeeds; a failing driver's error is
wrapped and returned, never suppressed; and (with at most one record per
identifier, the store's primary-key invariant) a set followed by a remove
leaves a subsequent lookup failing with the not-found sentinel. -/
theorem C5_remove_semantics :
    ∀ (h h' : Geoipdb.Handler) (c c' : Geoipdb.Collection) (asn descr m : String),
      h.overrides = some c → c.fault = none →
      h'.overrides = some c' → c'.fault = some m →
      c.docs.countP (fun d => d.asn == asn) ≤ 1 →
      ((c.docs.find? (fun d => d.asn == asn) = none →
          (h.OverridesRemove asn).1 = .ok ()) ∧
       (h'.OverridesRemove asn).1 =
          .error (.infra ("cannot remove override: " ++ m)) ∧
       (Geoipdb.reASN asn = true →
          (((h.OverridesSet asn descr).2.OverridesRemove asn).1 = .ok () ∧
           ((h.OverridesSet asn descr).2.OverridesRemove asn).2.OverridesLookup asn =
             .error .asnNotFound))) := by
  intro h h' c c' asn descr m hov hf hov' hf' hcount
  have main : ∀ (c2 : Geoipdb.Collection), c2.fault = none →
      c2.docs.countP (fun d => d.asn == asn) = 1 →
      ∀ (cache : List (String × String)),
      ((Geoipdb.Handler.mk (some c2) cache).OverridesRemove asn).1 = .ok () ∧
      ((Geoipdb.Handler.mk (some c2) cache).OverridesRemove asn).2.OverridesLookup asn =
        .error .asnNotFound := by
    intro c2 hf2 hone cache
    have hany2 : c2.docs.any (fun d => d.asn == asn) = true :=
      any_of_countP_pos _ _ (by omega)
    have hfind2 : (c2.docs.eraseP (fun d => d.asn == asn)).find? (fun d => d.asn == asn) =
        none := find?_eraseP_of_countP_eq_one _ _ hone
    simp [Geoipdb.Handler.OverridesRemove, Geoipdb.Collection.removeId, hf2, hany2,
      Geoipdb.Handler.OverridesLookup, Geoipdb.Collection.findId, hfind2]
  refine ⟨?_, ?_, ?_⟩
  · intro hfind
    have hany := any_eq_false_of_find?_eq_none _ _ hfind
    simp [Geoipdb.Handler.OverridesRemove, Geoipdb.Collection.removeId, hov, hf, hany]
  · simp [Geoipdb.Handler.OverridesRemove, Geoipdb.Collection.removeId, hov', hf']
  · intro hre
    cases hany : c.docs.any (fun d => d.asn == asn) with
    | true =>
      have hpos : 0 < c.docs.countP (fun d => d.asn == asn) := by
        rcases List.any_eq_true.mp hany with ⟨a, ha, hpa⟩
        exact List.countP_pos_iff.mpr ⟨a, ⟨ha, hpa⟩⟩
      have hone : (c.docs.map (fun d => if d.asn == asn then
          Geoipdb.AsnOverride.mk d.asn descr else d)).countP (fun d => d.asn == asn) = 1 := by
        rw [countP_upsert_map]
        omega
      have hset : (h.OverridesSet asn descr).2 =
          Geoipdb.Handler.mk (some (Geoipdb.Collection.mk
            (c.docs.map (fun d => if d.asn == asn then
              Geoipdb.AsnOverride.mk d.asn descr else d)) none))
            (Geoipdb.purgeASN h.cache asn) := by
        simp [Geoipdb.Handler.OverridesSet, Geoipdb.Collection.upsertId, hov, hf, hre, hany]
      rw [hset]
      exact main _ rfl hone _
    | false =>
      have hzero : c.docs.countP (fun d => d.asn == asn) = 0 :=
        List.countP_eq_zero.mpr (List.any_eq_false.mp hany)
      have hone : (c.docs ++ [Geoipdb.AsnOverride.mk asn descr]).countP
          (fun d => d.asn == asn) = 1 := by
        rw [List.countP_append, hzero]
        simp
      have hset : (h.OverridesSet asn descr).2 =
          Geoipdb.Handler.mk (some (Geoipdb.Collection.mk
            (c.docs ++ [Geoipdb.AsnOverride.mk asn descr]) none))
            (Geoipdb.purgeASN h.cache asn) := by
        simp [Geoipdb.Handler.OverridesSet, Geoipdb.Collection.upsertId, hov, hf, hre, hany]
      rw [hset]
      exact main _ rfl hone _

/-- C5 witness: removal of an absent identifier on a concrete empty
store; a wrapped driver fault on a concrete failing store; and the
set-remove-lookup sequence on the empty store. -/
theorem C5_remove_semantics_witness :
    ((Geoipdb.Handler.mk (some (Geoipdb.Collection.mk [] none)) []).OverridesRemove
      "AS1").1 = .ok () ∧
    ((Geoipdb.Handler.mk (some (Geoipdb.Collection.mk [] (some "boom"))) []).OverridesRemove
      "AS1").1 = .error (.infra ("cannot remove override: " ++ "boom")) ∧
    ((((Geoipdb.Handler.mk (some (Geoipdb.Collection.mk [] none)) []).OverridesSet
      "AS1" "d").2.OverridesRemove "AS1").1 = .ok () ∧
     (((Geoipdb.Handler.mk (some (Geoipdb.Collection.mk [] none)) []).OverridesSet
      "AS1" "d").2.OverridesRemove "AS1").2.OverridesLookup "AS1" = .error .asnNotFound) := by
  have t := C5_remove_semantics
    (Geoipdb.Handler.mk (some (Geoipdb.Collection.mk [] none)) [])
    (Geoipdb.Handler.mk (some (Geoipdb.Collection.mk [] (some "boom"))) [])
    (Geoipdb.Collection.mk [] none) (Geoipdb.Collection.mk [] (some "boom"))
    "AS1" "d" "boom" rfl rfl rfl rfl (by decide)
  exact ⟨t.1 rfl, t.2.1, t.2.2 (by decide)⟩

/-- C2 counterexample: "::ffff:0:0/96" is an entry of the IPv6 table, the
16-byte address ::ffff:8.8.8.8 lies inside that prefix (its first 12
bytes are the IPv4-in-IPv6 head, and the entry's parsed network contains
it), yet `IsLocalIP` answers false for it: the To4 step routes every
IPv4-mapped address to the IPv4 table, where 8.8.8.8 matches nothing. -/
theorem C2_counterexample :
    "::ffff:0:0/96" ∈ Iputils.nonGlobalIPv6CIDRs ∧
    [0, 0, 0, 0, 0, 0, 0, 0, 0, 0, 255, 255, 8, 8, 8, 8].take 12 = Iputils.v4InV6Head ∧
    (Iputils.parseCIDR "::ffff:0:0/96").map
      (fun pr => pr.2.contains [0, 0, 0, 0, 0, 0, 0, 0, 0, 0, 255, 255, 8, 8, 8, 8]) =
      some true ∧
    Iputils.IsLocalIP (some [0, 0, 0, 0, 0, 0, 0, 0, 0, 0, 255, 255, 8, 8, 8, 8]) = false :=
  ⟨by decide, by decide, by decide, by decide⟩

/-- C2 (amended): an address with a To4 form (a 4-byte IPv4 address or a
16-byte IPv4-mapped one) is classified exactly by membership of its
4-byte form in the parsed IPv4 table, so an address inside ::ffff:0:0/96
is local exactly when its embedded IPv4 address matches an IPv4 entry;
a 16-byte address without a To4 form is classified exactly by membership
in the parsed IPv6 table.  Consequently membership in a parsed table
entry forces a true answer (for the IPv6 table, for addresses without a
To4 form — which covers every address of every IPv6 entry except the
IPv4-mapped block), a globally routable IPv4 address yields false, the
IPv6 loopback yields true, and a global IPv6 address yields false. -/
theorem C2_classification :
    (∀ (ip ip4 : List Nat), Iputils.toIP4 ip = some ip4 →
      Iputils.IsLocalIP (some ip) = Iputils.ipv4Nets.any (fun n => n.contains ip4)) ∧
    (∀ (ip : List Nat), ip.length = 16 → Iputils.toIP4 ip = none →
      Iputils.IsLocalIP (some ip) = Iputils.ipv6Nets.any (fun n => n.contains ip)) ∧
    (∀ (ip ip4 : List Nat) (n : Iputils.IPNet), Iputils.toIP4 ip = some ip4 →
      n ∈ Iputils.ipv4Nets → n.contains ip4 = true →
      Iputils.IsLocalIP (some ip) = true) ∧
    (∀ (ip : List Nat) (n : Iputils.IPNet), ip.length = 16 →
      Iputils.toIP4 ip = none → n ∈ Iputils.ipv6Nets → n.contains ip = true →
      Iputils.IsLocalIP (some ip) = true) ∧
    Iputils.IsLocalIP (some [8, 8, 8, 8]) = false ∧
    Iputils.IsLocalIP (some [0, 0, 0, 0, 0, 0, 0, 0, 0, 0, 0, 0, 0, 0, 0, 1]) = true ∧
    Iputils.IsLocalIP (some [38, 0, 0, 0, 0, 0, 0, 0, 0, 0, 0, 0, 0, 0, 0, 1]) = false := by
  have key4 : ∀ (ip ip4 : List Nat), Iputils.toIP4 ip = some ip4 →
      Iputils.IsLocalIP (some ip) = Iputils.ipv4Nets.any (fun n => n.contains ip4) := by
    intro ip ip4 h4
    simp [Iputils.IsLocalIP, h4, localIPLoop_eq_any, Iputils.ipv4Nets]
  have key6 : ∀ (ip : List Nat), ip.length = 16 → Iputils.toIP4 ip = none →
      Iputils.IsLocalIP (some ip) = Iputils.ipv6Nets.any (fun n => n.contains ip) := by
    intro ip h16 h4
    simp [Iputils.IsLocalIP, h4, Iputils.toIP16, h16, localIPLoop_eq_any, Iputils.ipv6Nets]
  refine ⟨key4, key6, ?_, ?_, by decide, by decide, by decide⟩
  · intro ip ip4 n h4 hn hc
    rw [key4 ip ip4 h4]
    exact List.any_eq_true.mpr ⟨n, ⟨hn, hc⟩⟩
  · intro ip n h16 h4 hn hc
    rw [key6 ip h16 h4]
    exact List.any_eq_true.mpr ⟨n, ⟨hn, hc⟩⟩

/-- C2 witness: the classification applied at concrete inputs — the
loopback address 127.0.0.1 inside the parsed 127.0.0.0/8 entry, and the
IPv4-mapped ::ffff:8.8.8.8 reduced to its embedded IPv4 verdict. -/
theorem C2_classification_witness :
    Iputils.IsLocalIP (some [127, 0, 0, 1]) = true ∧
    Iputils.IsLocalIP (some [0, 0, 0, 0, 0, 0, 0, 0, 0, 0, 255, 255, 8, 8, 8, 8]) =
      Iputils.ipv4Nets.any (fun n => n.contains [8, 8, 8, 8]) := by
  constructor
  · exact C2_classification.2.2.1 [127, 0, 0, 1] [127, 0, 0, 1]
      (Iputils.IPNet.mk [127, 0, 0, 0] [255, 0, 0, 0]) rfl (by decide) (by decide)
  · exact C2_classification.1 [0, 0, 0, 0, 0, 0, 0, 0, 0, 0, 255, 255, 8, 8, 8, 8]
      [8, 8, 8, 8] (by decide)
